import Mathlib

/-!
Verification of the YARP pack/unpack format-string decoder.

The driver `pack_parse` (ext/yarp/extension.c, lines 367-446), the error
classification switch (lines 408-423), the directive construction
(lines 429-439) and `pack_encoding_to_ruby` (lines 348-365) are embedded
directly from the C source.  The single-step resolver `yp_pack_parse` is
declared in the source but its definition is not part of the given files,
so it is modelled from the specification (sections 4.1-4.3); those
definitions carry a doc comment starting with "Modelled from the spec:".
-/

namespace YarpPack

/-- Directive type tags, read off the `yp_pack_type` cases handled by
`pack_type_to_symbol` in extension.c, plus the `YP_PACK_END` value tested
by the driver at line 425. -/
inductive PackType
  | SPACE
  | COMMENT
  | INTEGER
  | UTF8
  | BER
  | FLOAT
  | STRING_SPACE_PADDED
  | STRING_NULL_PADDED
  | STRING_NULL_TERMINATED
  | STRING_MSB
  | STRING_LSB
  | STRING_HEX_HIGH
  | STRING_HEX_LOW
  | STRING_UU
  | STRING_MIME
  | STRING_BASE64
  | STRING_FIXED
  | STRING_POINTER
  | MOVE
  | BACK
  | NULL
  | END
deriving DecidableEq, Fintype

/-- Signedness tags, from `pack_signed_to_symbol` in extension.c. -/
inductive PackSigned
  | UNSIGNED
  | SIGNED
  | SIGNED_NA
deriving DecidableEq, Fintype

/-- Endianness tags, from `pack_endian_to_symbol` in extension.c. -/
inductive PackEndian
  | AGNOSTIC_ENDIAN
  | LITTLE_ENDIAN
  | BIG_ENDIAN
  | NATIVE_ENDIAN
  | ENDIAN_NA
deriving DecidableEq, Fintype

/-- Size-class tags, from `pack_size_to_symbol` in extension.c. -/
inductive PackSize
  | SIZE_SHORT
  | SIZE_INT
  | SIZE_LONG
  | SIZE_LONG_LONG
  | SIZE_8
  | SIZE_16
  | SIZE_32
  | SIZE_64
  | SIZE_P
  | SIZE_NA
deriving DecidableEq, Fintype

/-- Length-type tags, from `pack_length_type_to_symbol` in extension.c. -/
inductive PackLengthType
  | LENGTH_FIXED
  | LENGTH_MAX
  | LENGTH_RELATIVE
  | LENGTH_NA
deriving DecidableEq, Fintype

/-- Running-encoding values, from the `yp_pack_encoding` cases used in
extension.c: `YP_PACK_ENCODING_START` (line 389) and the three cases of
`pack_encoding_to_ruby`. -/
inductive PackEncoding
  | ENCODING_START
  | ENCODING_ASCII_8BIT
  | ENCODING_US_ASCII
  | ENCODING_UTF_8
deriving DecidableEq, Fintype

/-- Fatal resolver codes, read off the `yp_pack_result` error cases handled
by the switch in `pack_parse` (extension.c lines 408-423). -/
inductive PackError
  | UNSUPPORTED_DIRECTIVE
  | UNKNOWN_DIRECTIVE
  | LENGTH_TOO_BIG
  | BANG_NOT_ALLOWED
  | DOUBLE_ENDIAN
deriving DecidableEq, Fintype

/-- A raised Ruby exception: its class together with its message, as
produced by the `rb_raise` calls in `pack_parse`. -/
inductive RubyError
  | argumentError (msg : String)
  | rangeError (msg : String)
deriving DecidableEq

/-- The Ruby exception class alone (ArgumentError vs RangeError). -/
inductive RubyExcClass
  | ArgumentError
  | RangeError
deriving DecidableEq, Fintype

/-- Project a raised error onto its Ruby exception class. -/
def RubyError.excClass : RubyError → RubyExcClass
  | .argumentError _ => .ArgumentError
  | .rangeError _ => .RangeError

/-- The Ruby Encoding object returned for a directive stream, from
`pack_encoding_to_ruby` in extension.c. -/
inductive RubyEncoding
  | ascii8bit
  | usascii
  | utf8
deriving DecidableEq

/-- The error-classification switch of `pack_parse` (extension.c lines
408-423): each fatal resolver code is mapped to the exact `rb_raise`
call the C driver performs for it. -/
def classifyError : PackError → RubyError
  | .UNSUPPORTED_DIRECTIVE => .argumentError "unsupported directive"
  | .UNKNOWN_DIRECTIVE => .argumentError "unsupported directive"
  | .LENGTH_TOO_BIG => .rangeError "pack length too big"
  | .BANG_NOT_ALLOWED => .rangeError "bang not allowed"
  | .DOUBLE_ENDIAN => .rangeError "double endian"

/-- Embedding of `pack_encoding_to_ruby` (extension.c lines 348-365):
the three forced encodings map to Encoding objects, every other value
(in particular `YP_PACK_ENCODING_START`) maps to Qnil, modelled as
`none`. -/
def pack_encoding_to_ruby : PackEncoding → Option RubyEncoding
  | .ENCODING_ASCII_8BIT => some .ascii8bit
  | .ENCODING_US_ASCII => some .usascii
  | .ENCODING_UTF_8 => some .utf8
  | .ENCODING_START => none

/-- The single supported version tag (`YP_PACK_VERSION_3_2_0`, selected by
the `v3_2_0` symbol check at extension.c lines 369-374). -/
inductive PackVersion
  | v3_2_0
deriving DecidableEq, Fintype

/-- The variant tag (`YP_PACK_VARIANT_PACK` / `YP_PACK_VARIANT_UNPACK`,
selected at extension.c lines 376-383). -/
inductive PackVariant
  | pack
  | unpack
deriving DecidableEq, Fintype

/-- Modelled from the spec: the Format Scanner's whitespace alphabet
(section 4.1, "a run of ASCII space/tab/newline characters"); the scanner
itself is part of the `yp_pack_parse` resolver whose definition is not in
the given source files. -/
def isSpaceChar (c : Char) : Bool := c = ' ' || c = '\t' || c = '\n'

/-- Modelled from the spec: the modifier alphabet a directive span extends
through (section 4.1: numeric count digits, the wildcard count, the native
size modifier and the two endianness modifiers); legality of each modifier
is checked later by the Resolver, not by the Scanner. -/
def isModifierChar (c : Char) : Bool :=
  c.isDigit || c = '*' || c = '!' || c = '<' || c = '>'

/-- Modelled from the spec: the Format Scanner (section 4.1), a component
of `yp_pack_parse` not present in the given source.  Given the remaining
input it returns the byte length of the next raw directive span: a maximal
whitespace run, a comment up to but excluding the next newline, or a
directive letter followed by the run of modifier characters.  It returns 0
exactly at end of input. -/
def scanLen : List Char → Nat
  | [] => 0
  | c :: rest =>
    if isSpaceChar c then 1 + (rest.takeWhile isSpaceChar).length
    else if c = '#' then 1 + (rest.takeWhile (fun d => !(d = '\n' : Bool))).length
    else 1 + (rest.takeWhile isModifierChar).length

/-- Modelled from the spec: one row of the per-letter grammar table
consulted by the Directive Resolver (section 4.2).  The table's exact
content is external grammar data not present in the given source
(section 9, open question); each row carries the base type, default
signedness/endianness/size, default length behaviour, whether the letter
accepts the native-size modifier (and the size it then takes), and its
validity per variant. -/
structure PackEntry where
  type : PackType
  signed : PackSigned
  endian : PackEndian
  endianFixed : Bool
  size : PackSize
  bangSize : PackSize
  allowsBang : Bool
  defLengthType : PackLengthType
  defLength : Nat
  allowsPack : Bool
  allowsUnpack : Bool
deriving DecidableEq

/-- Modelled from the spec: table row for a UTF-8 character directive
(a directive "whose semantics transfer UTF-8-encoded text", section 4.3);
it does not accept the native-size modifier. -/
def entryU : PackEntry :=
  { type := .UTF8, signed := .SIGNED_NA, endian := .AGNOSTIC_ENDIAN,
    endianFixed := true, size := .SIZE_NA, bangSize := .SIZE_NA,
    allowsBang := false, defLengthType := .LENGTH_FIXED, defLength := 1,
    allowsPack := true, allowsUnpack := true }

/-- Modelled from the spec: table row for a BER-compressed integer
directive (section 4.3, "BER-style integer encodings"). -/
def entryW : PackEntry :=
  { type := .BER, signed := .UNSIGNED, endian := .AGNOSTIC_ENDIAN,
    endianFixed := true, size := .SIZE_NA, bangSize := .SIZE_NA,
    allowsBang := false, defLengthType := .LENGTH_FIXED, defLength := 1,
    allowsPack := true, allowsUnpack := true }

/-- Modelled from the spec: table row for a 32-bit signed integer
directive with overridable native endianness; it accepts the native-size
modifier, which switches it to the platform long size (section 4.2). -/
def entryL : PackEntry :=
  { type := .INTEGER, signed := .SIGNED, endian := .NATIVE_ENDIAN,
    endianFixed := false, size := .SIZE_32, bangSize := .SIZE_LONG,
    allowsBang := true, defLengthType := .LENGTH_FIXED, defLength := 1,
    allowsPack := true, allowsUnpack := true }

/-- Modelled from the spec: table row for a 32-bit unsigned integer
directive with fixed big endianness (a "machine-fixed direction",
section 4.2), so an endianness modifier naming the other direction is a
conflict. -/
def entryN : PackEntry :=
  { type := .INTEGER, signed := .UNSIGNED, endian := .BIG_ENDIAN,
    endianFixed := true, size := .SIZE_32, bangSize := .SIZE_NA,
    allowsBang := false, defLengthType := .LENGTH_FIXED, defLength := 1,
    allowsPack := true, allowsUnpack := true }

/-- Modelled from the spec: table row for a null-padded string
directive. -/
def entryA : PackEntry :=
  { type := .STRING_NULL_PADDED, signed := .SIGNED_NA,
    endian := .AGNOSTIC_ENDIAN, endianFixed := true, size := .SIZE_NA,
    bangSize := .SIZE_NA, allowsBang := false,
    defLengthType := .LENGTH_FIXED, defLength := 1,
    allowsPack := true, allowsUnpack := true }

/-- Modelled from the spec: table row for a string-pointer directive that
is valid only for the pack variant, exercising the
"valid only for pack, not unpack" case of section 4.2. -/
def entryP : PackEntry :=
  { type := .STRING_POINTER, signed := .SIGNED_NA, endian := .NATIVE_ENDIAN,
    endianFixed := true, size := .SIZE_P, bangSize := .SIZE_NA,
    allowsBang := false, defLengthType := .LENGTH_FIXED, defLength := 1,
    allowsPack := true, allowsUnpack := false }

/-- Modelled from the spec: the version/variant-specific per-letter
grammar table (section 4.2) consulted by the Directive Resolver, which is
external grammar data not present in the given source (section 9).  A
representative reconstruction covering each behaviour class; a letter not
listed here is unknown to the grammar. -/
def directiveTable (c : Char) : Option PackEntry :=
  if c = 'U' then some entryU
  else if c = 'w' then some entryW
  else if c = 'l' then some entryL
  else if c = 'N' then some entryN
  else if c = 'a' then some entryA
  else if c = 'P' then some entryP
  else none

/-- The maximum representable unsigned 64-bit magnitude for a directive
length. -/
def UINT64_MAX : Nat := 2 ^ 64 - 1

/-- The five-tuple plus numeric length produced by the Resolver for one
span, matching the out-parameters of `yp_pack_parse` (extension.c lines
394-399). -/
structure DirectiveFields where
  type : PackType
  signed : PackSigned
  endian : PackEndian
  size : PackSize
  lengthType : PackLengthType
  length : Nat
deriving DecidableEq

/-- Intermediate state while the Resolver processes the modifier
characters of one span. -/
structure ModState where
  endian : PackEndian
  sawEndian : Bool
  size : PackSize
  lengthType : PackLengthType
  length : Nat
  sawDigits : Bool
deriving DecidableEq

/-- Modelled from the spec: how the Directive Resolver (section 4.2)
processes one modifier character of a span against the letter's table
row.  A digit extends the fixed count (exceeding the unsigned 64-bit
range as the magnitude is parsed is LengthTooBig); the wildcard selects
the Max length type; the native-size modifier requires the row to allow
it; an endianness modifier conflicts if one was already given or if the
row's endianness is fixed and different. -/
def applyMod (e : PackEntry) (st : ModState) (c : Char) :
    Except PackError ModState :=
  if c.isDigit then
    let newLength : Nat :=
      if st.sawDigits then st.length * 10 + (c.toNat - 48) else c.toNat - 48
    if UINT64_MAX < newLength then .error .LENGTH_TOO_BIG
    else .ok { st with lengthType := .LENGTH_FIXED, length := newLength,
                       sawDigits := true }
  else if c = '*' then .ok { st with lengthType := .LENGTH_MAX }
  else if c = '!' then
    if e.allowsBang then .ok { st with size := e.bangSize }
    else .error .BANG_NOT_ALLOWED
  else if c = '<' then
    if st.sawEndian then .error .DOUBLE_ENDIAN
    else if e.endianFixed && !(e.endian = .LITTLE_ENDIAN : Bool) then
      .error .DOUBLE_ENDIAN
    else .ok { st with endian := .LITTLE_ENDIAN, sawEndian := true }
  else if c = '>' then
    if st.sawEndian then .error .DOUBLE_ENDIAN
    else if e.endianFixed && !(e.endian = .BIG_ENDIAN : Bool) then
      .error .DOUBLE_ENDIAN
    else .ok { st with endian := .BIG_ENDIAN, sawEndian := true }
  else .ok st

/-- Modelled from the spec: left-to-right processing of a span's modifier
characters by the Resolver (section 4.2), stopping at the first fatal
code. -/
def applyMods (e : PackEntry) : List Char → ModState → Except PackError ModState
  | [], st => .ok st
  | c :: cs, st =>
    match applyMod e st c with
    | .error err => .error err
    | .ok st2 => applyMods e cs st2

/-- Modelled from the spec: resolution of a letter span (section 4.2).
An absent letter is UnknownDirective; a letter invalid for the active
variant is UnsupportedDirective; otherwise the modifiers are applied to
the row's defaults. -/
def resolveLetter (variant : PackVariant) (c : Char) (mods : List Char) :
    Except PackError DirectiveFields :=
  match directiveTable c with
  | none => .error .UNKNOWN_DIRECTIVE
  | some e =>
    if (match variant with
        | .pack => !e.allowsPack
        | .unpack => !e.allowsUnpack) then
      .error .UNSUPPORTED_DIRECTIVE
    else
      match applyMods e mods
          { endian := e.endian, sawEndian := false, size := e.size,
            lengthType := e.defLengthType, length := e.defLength,
            sawDigits := false } with
      | .error err => .error err
      | .ok st =>
        .ok { type := e.type, signed := e.signed, endian := st.endian,
              size := st.size, lengthType := st.lengthType,
              length := st.length }

/-- Fields of a whitespace pseudo-directive: its type with everything
else NotApplicable (spec section 4.2). -/
def spaceFields : DirectiveFields :=
  { type := .SPACE, signed := .SIGNED_NA, endian := .ENDIAN_NA,
    size := .SIZE_NA, lengthType := .LENGTH_NA, length := 0 }

/-- Fields of a comment pseudo-directive: its type with everything else
NotApplicable (spec section 4.2). -/
def commentFields : DirectiveFields :=
  { type := .COMMENT, signed := .SIGNED_NA, endian := .ENDIAN_NA,
    size := .SIZE_NA, lengthType := .LENGTH_NA, length := 0 }

/-- Fields returned at end of input, carrying the `YP_PACK_END` type the
driver tests at extension.c line 425. -/
def endFields : DirectiveFields :=
  { type := .END, signed := .SIGNED_NA, endian := .ENDIAN_NA,
    size := .SIZE_NA, lengthType := .LENGTH_NA, length := 0 }

/-- Modelled from the spec: the Directive Resolver (section 4.2) applied
to one raw span as delimited by the Scanner.  An empty span only arises
at end of input and yields the end marker. -/
def resolveSpan (variant : PackVariant) : List Char → Except PackError DirectiveFields
  | [] => .ok endFields
  | c :: rest =>
    if isSpaceChar c then .ok spaceFields
    else if c = '#' then .ok commentFields
    else resolveLetter variant c rest

/-- Modelled from the spec: the Encoding Threader (section 4.3).
UTF-8 text directives force UTF-8, BER integer directives force
ASCII-8BIT, every other directive type leaves the running encoding
unchanged. -/
def threadEncoding (enc : PackEncoding) (t : PackType) : PackEncoding :=
  match t with
  | .UTF8 => .ENCODING_UTF_8
  | .BER => .ENCODING_ASCII_8BIT
  | _ => enc

/-- Modelled from the spec: one call of the resolver `yp_pack_parse`
(declared but not defined in the given source; sections 4.1-4.3 of the
spec).  It scans the next raw span of the remaining input, resolves it,
and on success threads the running encoding; the span consumed is
`input.take (scanLen input)`. -/
def ypPackStep (variant : PackVariant) (input : List Char) (enc : PackEncoding) :
    Except PackError (DirectiveFields × PackEncoding) :=
  match resolveSpan variant (input.take (scanLen input)) with
  | .error e => .error e
  | .ok f => .ok (f, threadEncoding enc f.type)

/-- Embedding of the length conversion at extension.c line 438:
`LONG2NUM(length)` receives the `uint64_t` length through an implicit
conversion to `long`.  On the LP64 platforms the extension targets,
`long` is a signed 64-bit integer and the conversion of a value at or
above 2^63 wraps modulo 2^64 into the negative range, so the Ruby
integer the caller sees is the signed reinterpretation of the unsigned
length. -/
def long2num_uint64 (n : Nat) : Int :=
  if n < 2 ^ 63 then (n : Int) else (n : Int) - 2 ^ 64

/-- One caller-visible Directive object, with the nine fields passed to
`rb_class_new_instance` at extension.c lines 429-439: version, variant,
the raw source span, the resolved five-tuple, and the length as the Ruby
integer produced at line 438. -/
structure Directive where
  version : PackVersion
  variant : PackVariant
  source : List Char
  type : PackType
  signed : PackSigned
  endian : PackEndian
  size : PackSize
  lengthType : PackLengthType
  length : Int
deriving DecidableEq

/-- Construction of one Directive from a resolved span, as at extension.c
lines 429-439. -/
def mkDirective (variant : PackVariant) (span : List Char)
    (f : DirectiveFields) : Directive :=
  { version := .v3_2_0, variant := variant, source := span, type := f.type,
    signed := f.signed, endian := f.endian, size := f.size,
    lengthType := f.lengthType, length := long2num_uint64 f.length }

/-- The caller-visible result object built at extension.c lines 442-445:
the ordered directive array and the Ruby Encoding (Qnil when the running
encoding never left its start value). -/
structure PackFormat where
  directives : List Directive
  encoding : Option RubyEncoding
deriving DecidableEq

/-- The scan-resolve loop of `pack_parse` (extension.c lines 393-440),
written with explicit fuel so that it is structurally recursive; each
iteration consumes at least one byte, so fuel equal to the input length
(as supplied by `packLoop`) is always sufficient.  On a fatal resolver
code the loop stops and surfaces the classified error; on the end marker
it stops; otherwise it appends the constructed Directive and continues on
the unconsumed remainder. -/
def packLoopF (variant : PackVariant) :
    Nat → List Char → PackEncoding →
      Except RubyError (List Directive × PackEncoding)
  | 0, _, enc => .ok ([], enc)
  | _ + 1, [], enc => .ok ([], enc)
  | fuel + 1, c :: cs, enc =>
    match ypPackStep variant (c :: cs) enc with
    | .error e => .error (classifyError e)
    | .ok (f, enc2) =>
      if f.type = PackType.END then .ok ([], enc2)
      else
        match packLoopF variant fuel ((c :: cs).drop (scanLen (c :: cs))) enc2 with
        | .error err => .error err
        | .ok (ds0, encRest) =>
          .ok (mkDirective variant ((c :: cs).take (scanLen (c :: cs))) f :: ds0,
               encRest)

/-- The scan-resolve loop of `pack_parse` run with sufficient fuel. -/
def packLoop (variant : PackVariant) (input : List Char) (enc : PackEncoding) :
    Except RubyError (List Directive × PackEncoding) :=
  packLoopF variant input.length input enc

/-- The body of `pack_parse` after the argument checks (extension.c lines
385-445): run the loop from the start encoding and package the directive
array with the Ruby encoding. -/
def packParseRun (variant : PackVariant) (format_string : List Char) :
    Except RubyError PackFormat :=
  match packLoop variant format_string .ENCODING_START with
  | .error e => .error e
  | .ok (ds, enc) => .ok { directives := ds, encoding := pack_encoding_to_ruby enc }

/-- Embedding of `pack_parse` (extension.c lines 367-446).  The version
symbol is checked first (lines 369-374), then the variant symbol (lines
376-383); only then is the format string scanned.  Symbols are modelled
by their names. -/
def pack_parse (version_symbol variant_symbol : String)
    (format_string : List Char) : Except RubyError PackFormat :=
  if version_symbol = "v3_2_0" then
    if variant_symbol = "pack" then packParseRun .pack format_string
    else if variant_symbol = "unpack" then packParseRun .unpack format_string
    else .error (.argumentError "invalid variant")
  else .error (.argumentError "invalid version")

/-- The variant a symbol name selects, if any (extension.c lines
376-383). -/
def variantOf (s : String) : Option PackVariant :=
  if s = "pack" then some .pack
  else if s = "unpack" then some .unpack
  else none

/-- Whether every span of the input resolves successfully when scanned
from the given running encoding, with explicit fuel mirroring
`packLoopF`. -/
def stepsOkF (variant : PackVariant) : Nat → List Char → PackEncoding → Bool
  | 0, _, _ => true
  | _ + 1, [], _ => true
  | fuel + 1, c :: cs, enc =>
    match ypPackStep variant (c :: cs) enc with
    | .error _ => false
    | .ok (_, enc2) => stepsOkF variant fuel ((c :: cs).drop (scanLen (c :: cs))) enc2

/-- Whether every span of the input resolves successfully. -/
def stepsOk (variant : PackVariant) (input : List Char) (enc : PackEncoding) : Bool :=
  stepsOkF variant input.length input enc

/-- Whether an Except value is a success. -/
def exceptIsOk {ε α : Type} : Except ε α → Bool
  | .ok _ => true
  | .error _ => false

instance {ε α : Type} [DecidableEq ε] [DecidableEq α] : DecidableEq (Except ε α) :=
  fun a b =>
    match a, b with
    | Except.ok x, Except.ok y =>
      if h : x = y then isTrue (congrArg Except.ok h)
      else isFalse (fun hc => h (Except.ok.inj hc))
    | Except.error x, Except.error y =>
      if h : x = y then isTrue (congrArg Except.error h)
      else isFalse (fun hc => h (Except.error.inj hc))
    | Except.ok _, Except.error _ => isFalse (fun hc => Except.noConfusion hc)
    | Except.error _, Except.ok _ => isFalse (fun hc => Except.noConfusion hc)

theorem scanLen_pos (c : Char) (cs : List Char) : 1 ≤ scanLen (c :: cs) := by
  simp only [scanLen]
  split_ifs <;> omega

theorem drop_scan_length_le (c : Char) (cs : List Char) (k : Nat)
    (hle : (c :: cs).length ≤ k + 1) :
    ((c :: cs).drop (scanLen (c :: cs))).length ≤ k := by
  rw [List.length_drop]
  have h1 := scanLen_pos c cs
  simp only [List.length_cons] at hle ⊢
  omega

theorem table_type_ne_end (c : Char) (e : PackEntry)
    (h : directiveTable c = some e) : e.type ≠ PackType.END := by
  unfold directiveTable at h
  split_ifs at h <;> first
    | (injection h with h; rw [← h]; decide)
    | exact absurd h (by simp)

theorem resolveSpan_ok_type (variant : PackVariant) (c : Char)
    (rest : List Char) (f : DirectiveFields)
    (h : resolveSpan variant (c :: rest) = .ok f) : f.type ≠ PackType.END := by
  simp only [resolveSpan] at h
  split_ifs at h with h1 h2
  · injection h with h; rw [← h]; decide
  · injection h with h; rw [← h]; decide
  · simp only [resolveLetter] at h
    split at h
    · simp at h
    · rename_i e htab
      split_ifs at h <;>
        first
          | simp at h
          | (split at h
             · simp at h
             · rename_i st happ
               injection h with h
               rw [← h]
               exact table_type_ne_end c e htab)

theorem take_scan_cons (c : Char) (cs : List Char) :
    ∃ t, (c :: cs).take (scanLen (c :: cs)) = c :: t := by
  have h1 := scanLen_pos c cs
  obtain ⟨k, hk⟩ : ∃ k, scanLen (c :: cs) = k + 1 := by
    cases h : scanLen (c :: cs) with
    | zero => rw [h] at h1; omega
    | succ k => exact ⟨k, rfl⟩
  rw [hk]
  exact ⟨cs.take k, rfl⟩

theorem step_type_ne_end (variant : PackVariant) (c : Char) (cs : List Char)
    (enc : PackEncoding) (f : DirectiveFields) (enc2 : PackEncoding)
    (h : ypPackStep variant (c :: cs) enc = .ok (f, enc2)) :
    f.type ≠ PackType.END := by
  unfold ypPackStep at h
  obtain ⟨t, ht⟩ := take_scan_cons c cs
  rw [ht] at h
  split at h
  · exact absurd h (by simp)
  · rename_i f0 hres
    injection h with h
    have hf : f0 = f := congrArg Prod.fst h
    rw [← hf]
    exact resolveSpan_ok_type variant c t f0 hres

theorem packLoopF_join (variant : PackVariant) :
    ∀ fuel input enc ds encF, input.length ≤ fuel →
      packLoopF variant fuel input enc = Except.ok (ds, encF) →
      (ds.map (fun d => d.source)).flatten = input := by
  intro fuel
  induction fuel with
  | zero =>
    intro input enc ds encF hle h
    have hinput : input = [] := List.eq_nil_of_length_eq_zero (Nat.le_zero.mp hle)
    subst hinput
    simp only [packLoopF, Except.ok.injEq, Prod.mk.injEq] at h
    obtain ⟨h1, h2⟩ := h
    rw [← h1]
    simp
  | succ k ih =>
    intro input enc ds encF hle h
    cases input with
    | nil =>
      simp only [packLoopF, Except.ok.injEq, Prod.mk.injEq] at h
      obtain ⟨h1, h2⟩ := h
      rw [← h1]
      simp
    | cons c cs =>
      simp only [packLoopF] at h
      split at h
      · simp at h
      · rename_i f enc2 hstep
        split at h
        · rename_i hEND
          exact absurd hEND (step_type_ne_end variant c cs enc f enc2 hstep)
        · split at h
          · simp at h
          · rename_i ds0 encRest hrec
            simp only [Except.ok.injEq, Prod.mk.injEq] at h
            obtain ⟨h1, h2⟩ := h
            rw [← h1]
            have hrest := ih ((c :: cs).drop (scanLen (c :: cs))) enc2 ds0 encRest
              (drop_scan_length_le c cs k hle) hrec
            simp only [List.map_cons, List.flatten_cons, mkDirective]
            rw [hrest]
            exact List.take_append_drop _ _

theorem packLoopF_enc (variant : PackVariant) :
    ∀ fuel input enc ds encF, input.length ≤ fuel →
      packLoopF variant fuel input enc = Except.ok (ds, encF) →
      encF = (ds.map (fun d => d.type)).foldl threadEncoding enc := by
  intro fuel
  induction fuel with
  | zero =>
    intro input enc ds encF hle h
    have hinput : input = [] := List.eq_nil_of_length_eq_zero (Nat.le_zero.mp hle)
    subst hinput
    simp only [packLoopF, Except.ok.injEq, Prod.mk.injEq] at h
    obtain ⟨h1, h2⟩ := h
    rw [← h1, ← h2]
    simp
  | succ k ih =>
    intro input enc ds encF hle h
    cases input with
    | nil =>
      simp only [packLoopF, Except.ok.injEq, Prod.mk.injEq] at h
      obtain ⟨h1, h2⟩ := h
      rw [← h1, ← h2]
      simp
    | cons c cs =>
      simp only [packLoopF] at h
      split at h
      · simp at h
      · rename_i f enc2 hstep
        split at h
        · rename_i hEND
          exact absurd hEND (step_type_ne_end variant c cs enc f enc2 hstep)
        · split at h
          · simp at h
          · rename_i ds0 encRest hrec
            simp only [Except.ok.injEq, Prod.mk.injEq] at h
            obtain ⟨h1, h2⟩ := h
            have hrest := ih ((c :: cs).drop (scanLen (c :: cs))) enc2 ds0 encRest
              (drop_scan_length_le c cs k hle) hrec
            have henc2 : enc2 = threadEncoding enc f.type := by
              unfold ypPackStep at hstep
              split at hstep
              · exact absurd hstep (by simp)
              · rename_i f0 hres
                injection hstep with hstep
                have hf : f0 = f := congrArg Prod.fst hstep
                have he : threadEncoding enc f0.type = enc2 :=
                  congrArg Prod.snd hstep
                rw [← he, hf]
            rw [← h1, ← h2]
            simp only [List.map_cons, List.foldl_cons, mkDirective]
            rw [hrest, henc2]

theorem packLoopF_isOk_eq (variant : PackVariant) :
    ∀ fuel input enc,
      exceptIsOk (packLoopF variant fuel input enc) = stepsOkF variant fuel input enc := by
  intro fuel
  induction fuel with
  | zero => intro input enc; rfl
  | succ k ih =>
    intro input enc
    cases input with
    | nil => rfl
    | cons c cs =>
      simp only [packLoopF, stepsOkF]
      cases hstep : ypPackStep variant (c :: cs) enc with
      | error e => rfl
      | ok fe =>
        obtain ⟨f, enc2⟩ := fe
        have hne := step_type_ne_end variant c cs enc f enc2 hstep
        simp only [hne, if_false, ite_false, if_neg hne]
        cases hrec : packLoopF variant k ((c :: cs).drop (scanLen (c :: cs))) enc2 with
        | error err =>
          have := ih ((c :: cs).drop (scanLen (c :: cs))) enc2
          rw [hrec] at this
          exact this
        | ok p =>
          obtain ⟨ds0, encRest⟩ := p
          have := ih ((c :: cs).drop (scanLen (c :: cs))) enc2
          rw [hrec] at this
          exact this

/-- Whether a directive type forces the running encoding (spec
section 4.3): UTF-8 text directives and BER integer directives do, no
other type does. -/
def isForcing (t : PackType) : Bool := t = PackType.UTF8 || t = PackType.BER

/-- The encoding a forcing directive type forces. -/
def forcedEnc : PackType → PackEncoding
  | .UTF8 => .ENCODING_UTF_8
  | .BER => .ENCODING_ASCII_8BIT
  | _ => .ENCODING_START

theorem thread_not_forcing (enc : PackEncoding) (t : PackType)
    (h : isForcing t = false) : threadEncoding enc t = enc := by
  cases t <;> simp_all [isForcing, threadEncoding]

theorem thread_forcing (enc : PackEncoding) (t : PackType)
    (h : isForcing t = true) : threadEncoding enc t = forcedEnc t := by
  cases t <;> simp_all [isForcing, threadEncoding, forcedEnc]

theorem foldl_thread_no_forcing (l : List PackType) :
    ∀ enc, (∀ t ∈ l, isForcing t = false) → l.foldl threadEncoding enc = enc := by
  induction l with
  | nil => intro enc h; rfl
  | cons t ts ih =>
    intro enc h
    rw [List.foldl_cons, thread_not_forcing enc t (h t (by simp))]
    exact ih enc (fun u hu => h u (by simp [hu]))

/-- C1: if the resolver returns a fatal code for the span at the current
position, the decode loop of `pack_parse` aborts at that span: it returns
exactly the classified error, appending no Directive for the failing span
and consuming no further input (the loop performs no further recursion),
so the caller receives a single classified error and no partial
DirectiveStream. -/
theorem c1_fatal_abort (variant : PackVariant) (input : List Char)
    (enc : PackEncoding) (e : PackError)
    (h : ypPackStep variant input enc = .error e) :
    packLoop variant input enc = .error (classifyError e) := by
  cases input with
  | nil =>
    exfalso
    cases variant <;> cases enc <;> cases e <;> exact absurd h (by decide)
  | cons c cs =>
    unfold packLoop
    rw [List.length_cons]
    simp only [packLoopF]
    rw [h]

/-- Witness for C1 at a concrete failing input: the native-size modifier
on a letter that forbids it. -/
theorem c1_fatal_abort_witness :
    packLoop PackVariant.pack ['U', '!'] PackEncoding.ENCODING_START =
      Except.error (classifyError PackError.BANG_NOT_ALLOWED) :=
  c1_fatal_abort PackVariant.pack ['U', '!'] PackEncoding.ENCODING_START
    PackError.BANG_NOT_ALLOWED (by decide)

/-- C2: the resolver does hold a count of 2^64 - 1 exactly and rejects
2^64 with LengthTooBig (appending no directive), but the driver of
extension.c line 438 reports the resolved length through
`LONG2NUM` after an implicit conversion of the `uint64_t` value to
`long`, so the length 2^64 - 1 reaches the caller wrapped to -1 instead
of unwrapped, contradicting the claim that the resolved length is
reported without wrapping. -/
theorem c2_length_report :
    (∃ f, ypPackStep PackVariant.pack ("l18446744073709551615".toList)
        PackEncoding.ENCODING_START = .ok (f, PackEncoding.ENCODING_START) ∧
        f.length = 2 ^ 64 - 1 ∧ f.lengthType = PackLengthType.LENGTH_FIXED) ∧
    (∃ d, pack_parse "v3_2_0" "pack" ("l18446744073709551615".toList) =
        .ok { directives := [d], encoding := none } ∧ d.length = -1) ∧
    pack_parse "v3_2_0" "pack" ("l18446744073709551616".toList) =
      .error (.rangeError "pack length too big") := by
  refine ⟨⟨{ type := .INTEGER, signed := .SIGNED, endian := .NATIVE_ENDIAN,
             size := .SIZE_32, lengthType := .LENGTH_FIXED,
             length := 18446744073709551615 },
      by decide, by decide, by decide⟩,
    ⟨{ version := .v3_2_0, variant := .pack,
       source := "l18446744073709551615".toList, type := .INTEGER,
       signed := .SIGNED, endian := .NATIVE_ENDIAN, size := .SIZE_32,
       lengthType := .LENGTH_FIXED, length := -1 },
      by decide, by decide⟩,
    by decide⟩

/-- C3 counterexample: the two resolver codes UnknownDirective and
UnsupportedDirective are surfaced as the very same raised error by the
classification switch (extension.c lines 411-414), and two concrete
format strings failing for the two different reasons produce identical
caller-visible results, so the two cases are not distinguishable in the
surfaced error. -/
theorem c3_error_conflation_counterexample :
    classifyError PackError.UNKNOWN_DIRECTIVE =
      classifyError PackError.UNSUPPORTED_DIRECTIVE ∧
    pack_parse "v3_2_0" "pack" ['z'] = pack_parse "v3_2_0" "unpack" ['P'] := by
  decide

/-- C3 amended: UnknownDirective and UnsupportedDirective are two
distinct codes at the resolver interface, but the driver surfaces both
as ArgumentError with the same message "unsupported directive", so they
are not distinguishable at the caller-visible interface. -/
theorem c3_error_surface_amended :
    classifyError PackError.UNKNOWN_DIRECTIVE =
      RubyError.argumentError "unsupported directive" ∧
    classifyError PackError.UNSUPPORTED_DIRECTIVE =
      RubyError.argumentError "unsupported directive" ∧
    PackError.UNKNOWN_DIRECTIVE ≠ PackError.UNSUPPORTED_DIRECTIVE := by
  decide

/-- C4 counterexample: an invalid version raises ArgumentError, which is
the same Ruby exception class as the classified UnknownDirective and
UnsupportedDirective decode errors, so the usage error is not a distinct
exception class from all five decode-time errors. -/
theorem c4_usage_error_counterexample :
    pack_parse "bogus" "pack" ['U'] =
      Except.error (RubyError.argumentError "invalid version") ∧
    (RubyError.argumentError "invalid version").excClass =
      (classifyError PackError.UNKNOWN_DIRECTIVE).excClass := by
  decide

/-- C4 amended: a version argument other than v3_2_0, or a variant other
than pack or unpack, raises an ArgumentError usage error whose result
does not depend on the format string (the check happens before any byte
is scanned and before any Directive is produced), and whose error value
is distinct from all five classified decode-time errors by its message
text; it does however share the Ruby exception class ArgumentError with
the UnknownDirective and UnsupportedDirective decode errors. -/
theorem c4_usage_error_amended (vS varS : String) (fmt : List Char)
    (h : vS ≠ "v3_2_0" ∨ (varS ≠ "pack" ∧ varS ≠ "unpack")) :
    ∃ msg, pack_parse vS varS fmt = Except.error (RubyError.argumentError msg) ∧
      (∀ fmt2, pack_parse vS varS fmt2 = pack_parse vS varS fmt) ∧
      (∀ e : PackError, classifyError e ≠ RubyError.argumentError msg) := by
  by_cases hv : vS = "v3_2_0"
  · rcases h with h | ⟨h1, h2⟩
    · exact absurd hv h
    · refine ⟨"invalid variant", ?_, ?_, ?_⟩
      · simp [pack_parse, hv, h1, h2]
      · intro fmt2
        simp [pack_parse, hv, h1, h2]
      · intro e
        cases e <;> decide
  · refine ⟨"invalid version", ?_, ?_, ?_⟩
    · simp [pack_parse, hv]
    · intro fmt2
      simp [pack_parse, hv]
    · intro e
      cases e <;> decide

/-- Witness for C4 at a concrete invalid version symbol. -/
theorem c4_usage_error_witness :
    ∃ msg, pack_parse "bogus" "pack" [] =
        Except.error (RubyError.argumentError msg) ∧
      (∀ fmt2, pack_parse "bogus" "pack" fmt2 = pack_parse "bogus" "pack" []) ∧
      (∀ e : PackError, classifyError e ≠ RubyError.argumentError msg) :=
  c4_usage_error_amended "bogus" "pack" [] (Or.inl (by decide))

/-- C5: for every format string that decodes successfully, the raw
source spans of the emitted Directives concatenate, in scan order, to
exactly the input (so they are consecutive, non-overlapping sub-ranges
covering it), and the sum of the consumed span lengths equals the input
length. -/
theorem c5_span_coverage (vS varS : String) (fmt : List Char) (r : PackFormat)
    (h : pack_parse vS varS fmt = Except.ok r) :
    (r.directives.map (fun d => d.source)).flatten = fmt ∧
      (r.directives.map (fun d => d.source.length)).sum = fmt.length := by
  have hex : ∃ variant, packParseRun variant fmt = Except.ok r := by
    unfold pack_parse at h
    split_ifs at h <;>
      first
        | exact ⟨PackVariant.pack, h⟩
        | exact ⟨PackVariant.unpack, h⟩
        | exact absurd h (by simp)
  obtain ⟨variant, hrun⟩ := hex
  unfold packParseRun at hrun
  split at hrun
  · simp at hrun
  · rename_i ds enc hloop
    injection hrun with hrun
    have hds : r.directives = ds := by rw [← hrun]
    unfold packLoop at hloop
    have hj := packLoopF_join variant fmt.length fmt PackEncoding.ENCODING_START
      ds enc (le_refl _) hloop
    constructor
    · rw [hds]
      exact hj
    · rw [hds]
      have hlen := congrArg List.length hj
      rw [List.length_flatten, List.map_map] at hlen
      simpa [Function.comp] using hlen

/-- Witness for C5 at a concrete successful decode. -/
theorem c5_span_coverage_witness :
    ∃ r, pack_parse "v3_2_0" "pack" ['U'] = Except.ok r ∧
      (r.directives.map (fun d => d.source)).flatten = ['U'] := by
  refine ⟨{ directives := [{ version := .v3_2_0, variant := .pack,
                             source := ['U'], type := .UTF8,
                             signed := .SIGNED_NA,
                             endian := .AGNOSTIC_ENDIAN, size := .SIZE_NA,
                             lengthType := .LENGTH_FIXED, length := 1 }],
            encoding := some .utf8 }, by decide, ?_⟩
  exact (c5_span_coverage "v3_2_0" "pack" ['U'] _ (by decide)).1

/-- C6: for every format string all of whose spans resolve successfully,
reaching end of input terminates the decode in the success state, with
the accumulated ordered directive stream and the final running encoding
as the sole output of the call. -/
theorem c6_success_at_end (varS : String) (var : PackVariant) (fmt : List Char)
    (hv : variantOf varS = some var)
    (h : stepsOk var fmt PackEncoding.ENCODING_START = true) :
    ∃ ds encF, packLoop var fmt PackEncoding.ENCODING_START = Except.ok (ds, encF) ∧
      pack_parse "v3_2_0" varS fmt =
        Except.ok { directives := ds, encoding := pack_encoding_to_ruby encF } := by
  have hok : exceptIsOk (packLoop var fmt PackEncoding.ENCODING_START) = true := by
    unfold packLoop
    rw [packLoopF_isOk_eq]
    exact h
  obtain ⟨ds, encF, hp⟩ :
      ∃ ds encF, packLoop var fmt PackEncoding.ENCODING_START =
        Except.ok (ds, encF) := by
    cases hres : packLoop var fmt PackEncoding.ENCODING_START with
    | ok p =>
      obtain ⟨ds0, encF0⟩ := p
      exact ⟨ds0, encF0, rfl⟩
    | error e =>
      rw [hres] at hok
      exact absurd hok (by simp [exceptIsOk])
  refine ⟨ds, encF, hp, ?_⟩
  unfold variantOf at hv
  split_ifs at hv with h1 h2
  · injection hv with hv
    subst hv
    subst h1
    simp [pack_parse, packParseRun, hp]
  · injection hv with hv
    subst hv
    subst h2
    simp [pack_parse, packParseRun, hp]

/-- Witness for C6 at a concrete fully-resolving format string. -/
theorem c6_success_at_end_witness :
    ∃ ds encF, packLoop PackVariant.pack ['U'] PackEncoding.ENCODING_START =
        Except.ok (ds, encF) ∧
      pack_parse "v3_2_0" "pack" ['U'] =
        Except.ok { directives := ds, encoding := pack_encoding_to_ruby encF } :=
  c6_success_at_end "pack" PackVariant.pack ['U'] (by decide) (by decide)

/-- C7: across one decode the running encoding is exactly the left fold
of the encoding threader over the emitted directive types, so the last
encoding-forcing directive in scan order determines the final encoding;
the resolver's success or failure on a span never depends on the running
encoding (an encoding conflict is never an error); and once the running
encoding has left the start (Unspecified) value a threader step can
never reset it back. -/
theorem c7_encoding_threading (variant : PackVariant) (fmt : List Char)
    (ds : List Directive) (encF : PackEncoding)
    (h : packLoop variant fmt PackEncoding.ENCODING_START = Except.ok (ds, encF)) :
    encF = (ds.map (fun d => d.type)).foldl threadEncoding
        PackEncoding.ENCODING_START ∧
    (∀ pre t post, ds.map (fun d => d.type) = pre ++ t :: post →
      isForcing t = true → (∀ u ∈ post, isForcing u = false) →
      encF = forcedEnc t) ∧
    (∀ input enc1 enc2 e,
      (ypPackStep variant input enc1 = Except.error e ↔
        ypPackStep variant input enc2 = Except.error e)) ∧
    (∀ enc t, enc ≠ PackEncoding.ENCODING_START →
      threadEncoding enc t ≠ PackEncoding.ENCODING_START) := by
  unfold packLoop at h
  have hfold := packLoopF_enc variant fmt.length fmt PackEncoding.ENCODING_START
    ds encF (le_refl _) h
  refine ⟨hfold, ?_, ?_, ?_⟩
  · intro pre t post hsplit hforce hpost
    rw [hfold, hsplit, List.foldl_append, List.foldl_cons,
      thread_forcing _ t hforce]
    exact foldl_thread_no_forcing post _ hpost
  · intro input enc1 enc2 e
    unfold ypPackStep
    cases hres : resolveSpan variant (input.take (scanLen input)) <;> simp
  · intro enc t hne
    cases t <;> simp [threadEncoding] <;> exact hne

/-- Witness for C7 at a concrete decode whose single directive forces
UTF-8. -/
theorem c7_encoding_threading_witness :
    ∃ ds encF, packLoop PackVariant.pack ['U'] PackEncoding.ENCODING_START =
        Except.ok (ds, encF) ∧
      encF = (ds.map (fun d => d.type)).foldl threadEncoding
        PackEncoding.ENCODING_START := by
  refine ⟨[{ version := .v3_2_0, variant := .pack, source := ['U'],
             type := .UTF8, signed := .SIGNED_NA,
             endian := .AGNOSTIC_ENDIAN, size := .SIZE_NA,
             lengthType := .LENGTH_FIXED, length := 1 }],
    PackEncoding.ENCODING_UTF_8, by decide, ?_⟩
  exact (c7_encoding_threading PackVariant.pack ['U'] _ _ (by decide)).1

/-- C8: decoding is deterministic: two calls on equal format-string
bytes with the same version and variant symbols return identical results
(the embedding of the decoder is a pure function of its three arguments,
matching the C code whose state is all call-local and whose global
tables are read-only). -/
theorem c8_deterministic (vS varS : String) (fmt1 fmt2 : List Char)
    (h : fmt1 = fmt2) :
    pack_parse vS varS fmt1 = pack_parse vS varS fmt2 := by
  rw [h]

/-- Witness for C8 at a concrete repeated decode. -/
theorem c8_deterministic_witness :
    pack_parse "v3_2_0" "pack" ['U'] = pack_parse "v3_2_0" "pack" ['U'] :=
  c8_deterministic "v3_2_0" "pack" ['U'] ['U'] rfl

/-- C9: decoding an empty format string with a valid version and either
variant succeeds with an empty directive sequence and a nil encoding
(the loop never runs, the running encoding stays at its start value, and
`pack_encoding_to_ruby` maps the start value to Qnil). -/
theorem c9_empty_format :
    pack_parse "v3_2_0" "pack" [] =
      Except.ok { directives := [], encoding := none } ∧
    pack_parse "v3_2_0" "unpack" [] =
      Except.ok { directives := [], encoding := none } := by
  decide

/-- C10: the five decode-time errors surface as exactly two Ruby
exception classes: UnknownDirective and UnsupportedDirective raise
ArgumentError and the other three raise RangeError, and classification
determines the class exactly (the switch's default branch, for any code
outside these five and OK, is the internal `rb_bug`, which no modelled
resolver code reaches). -/
theorem c10_error_classification :
    classifyError PackError.UNKNOWN_DIRECTIVE =
      RubyError.argumentError "unsupported directive" ∧
    classifyError PackError.UNSUPPORTED_DIRECTIVE =
      RubyError.argumentError "unsupported directive" ∧
    classifyError PackError.LENGTH_TOO_BIG =
      RubyError.rangeError "pack length too big" ∧
    classifyError PackError.BANG_NOT_ALLOWED =
      RubyError.rangeError "bang not allowed" ∧
    classifyError PackError.DOUBLE_ENDIAN =
      RubyError.rangeError "double endian" ∧
    (∀ e : PackError, (classifyError e).excClass = RubyExcClass.ArgumentError ↔
      (e = PackError.UNKNOWN_DIRECTIVE ∨ e = PackError.UNSUPPORTED_DIRECTIVE)) ∧
    (∀ e : PackError, (classifyError e).excClass = RubyExcClass.RangeError ↔
      (e = PackError.LENGTH_TOO_BIG ∨ e = PackError.BANG_NOT_ALLOWED ∨
        e = PackError.DOUBLE_ENDIAN)) := by
  decide

end YarpPack
